import Mathlib

/-!
Verification development for the Reliant document field-extraction pipeline.

The definitions below are shallow embeddings of the pure logic of
`src/extract_coi_date.py` and `src/invoice_rename.py`.  Text is modelled as
`String` (manipulated through its `List Char` data so that everything reduces
in the kernel); Python `datetime` values are modelled by the `YMD` structure
ordered lexicographically, exactly as `datetime` objects of one calendar
compare; regex scanning is represented by passing the list of regex matches
(match substrings / groups) that the scan produced, while all per-match
parsing, filtering, selection, search and formatting logic is embedded from
the source.  Python `strptime` is embedded format by format, including its
exact-width year fields (a 4-digit `%Y`, a 2-digit `%y` with the 69/68 century
pivot) and calendar validation.  Only ASCII case mapping and classification is
modelled, matching the ASCII regex classes used by the source.
-/

/-! ## Basic string machinery (Python semantics, over `List Char`) -/

/-- Decimal digit character for a value 0..9. -/
def digitChar (n : Nat) : Char := Char.ofNat (48 + n)

/-- ASCII lower-casing of one character, as Python `str.lower` acts on ASCII. -/
def charLower (c : Char) : Char :=
  if 'A' ≤ c ∧ c ≤ 'Z' then Char.ofNat (c.toNat + 32) else c

/-- ASCII upper-casing of one character, as Python `str.upper` acts on ASCII. -/
def charUpper (c : Char) : Char :=
  if 'a' ≤ c ∧ c ≤ 'z' then Char.ofNat (c.toNat - 32) else c

/-- ASCII lower-casing of a string. -/
def strLower (s : String) : String := ⟨s.data.map charLower⟩

/-- ASCII upper-casing of a string. -/
def strUpper (s : String) : String := ⟨s.data.map charUpper⟩

/-- Decimal digits of a natural number (auxiliary, fuelled by the number itself). -/
def natToCharsAux : Nat → Nat → List Char
  | 0, _ => []
  | fuel+1, n => if n < 10 then [digitChar n] else natToCharsAux fuel (n / 10) ++ [digitChar (n % 10)]

/-- Decimal digits of a natural number. -/
def natChars (n : Nat) : List Char := natToCharsAux (n + 1) n

/-- Two-digit zero-padded decimal rendering, as `strftime` `%m`/`%d`/`%y` pad. -/
def pad2c (n : Nat) : List Char := if n < 10 then '0' :: natChars n else natChars n

/-- Python `str.split(sep)` for a one-character separator: keeps empty fields. -/
def splitOnCharAux (sep : Char) : List Char → List Char → List (List Char)
  | [], acc => [acc.reverse]
  | c :: rest, acc =>
    if c = sep then acc.reverse :: splitOnCharAux sep rest []
    else splitOnCharAux sep rest (c :: acc)

/-- Python `str.split(sep)` for a one-character separator. -/
def splitOnChar (sep : Char) (l : List Char) : List (List Char) := splitOnCharAux sep l []

/-- Python `str.split()` with no argument: split on whitespace runs, dropping
empty fields. -/
def pysplitAux : List Char → List Char → List (List Char)
  | [], acc => if acc.isEmpty then [] else [acc.reverse]
  | c :: rest, acc =>
    if c.isWhitespace then
      (if acc.isEmpty then pysplitAux rest [] else acc.reverse :: pysplitAux rest [])
    else pysplitAux rest (c :: acc)

/-- Python `text.split()` returning strings. -/
def pysplit (s : String) : List String := (pysplitAux s.data []).map fun l => ⟨l⟩

/-- Character index of the first occurrence of `needle` in the remaining hay
(auxiliary; `i` is the index of the head of the remaining hay). -/
def firstOccAux (needle : List Char) : List Char → Nat → Option Nat
  | [], i => if needle.isEmpty then some i else none
  | c :: rest, i =>
    if needle.isPrefixOf (c :: rest) then some i
    else firstOccAux needle rest (i + 1)

/-- Python `hay.find(needle)`: character index of the first occurrence, as an
`Option` (`none` models the `-1` "not found" result). -/
def pyfind (hay needle : String) : Option Nat := firstOccAux needle.data hay.data 0

/-- Python `needle in hay` substring test. -/
def substrB (needle hay : String) : Bool := (pyfind hay needle).isSome

/-- Python `str.strip()`: drop leading and trailing whitespace. -/
def trimChars (l : List Char) : List Char :=
  ((l.dropWhile Char.isWhitespace).reverse.dropWhile Char.isWhitespace).reverse

/-- Python `str.strip()` on strings. -/
def pystrip (s : String) : String := ⟨trimChars s.data⟩

/-- Value of a run of decimal digit characters. -/
def toNatDigits (l : List Char) : Nat := l.foldl (fun acc c => acc * 10 + (c.toNat - 48)) 0

/-- Join character-lists with a single separator character, as `sep.join(parts)`. -/
def joinSep (sep : Char) : List (List Char) → List Char
  | [] => []
  | [x] => x
  | x :: rest => x ++ sep :: joinSep sep rest

/-! ## Calendar dates (`datetime` model) -/

/-- A calendar date, as the (year, month, day) of a Python `datetime`. -/
structure YMD where
  y : Nat
  m : Nat
  d : Nat
deriving DecidableEq

/-- `datetime` comparison: lexicographic on (year, month, day). -/
def ymdLt (a b : YMD) : Prop :=
  a.y < b.y ∨ (a.y = b.y ∧ (a.m < b.m ∨ (a.m = b.m ∧ a.d < b.d)))

instance (a b : YMD) : Decidable (ymdLt a b) := by
  unfold ymdLt
  infer_instance

/-- Leap-year rule used by `datetime`'s calendar. -/
def isLeap (y : Nat) : Bool := y % 4 = 0 && (y % 100 ≠ 0 || y % 400 = 0)

/-- Number of days of a month in a given year. -/
def daysInMonth (y m : Nat) : Nat :=
  if m = 2 then (if isLeap y then 29 else 28)
  else if m = 4 ∨ m = 6 ∨ m = 9 ∨ m = 11 then 30 else 31

/-- `datetime(year, month, day)` construction: validates the ranges `datetime`
enforces (`MINYEAR ≤ y ≤ MAXYEAR`, month 1..12, day within the month),
yielding `none` where Python raises `ValueError`. -/
def mkDate (y m d : Nat) : Option YMD :=
  if 1 ≤ y ∧ y ≤ 9999 ∧ 1 ≤ m ∧ m ≤ 12 ∧ 1 ≤ d ∧ d ≤ daysInMonth y m then some ⟨y, m, d⟩
  else none

/-! ## `strptime` embeddings

CPython's `_strptime` matches `%m` and `%d` as one- or two-digit fields with
the shown value ranges, `%Y` as an exactly-four-digit field, `%y` as an
exactly-two-digit field expanded with the 69/68 century pivot, month names
case-insensitively, literal separators exactly, and whitespace in the format
as a whitespace run; the matched values then go through `datetime` validation.
Each used format string is embedded as one function. -/

/-- A numeric `strptime` field: all digits, with the given width bounds. -/
def pieceNum (minL maxL : Nat) (p : List Char) : Option Nat :=
  if p.all Char.isDigit ∧ minL ≤ p.length ∧ p.length ≤ maxL then some (toNatDigits p)
  else none

/-- The `%y` two-digit-year century pivot: 00-68 becomes 20YY, 69-99 becomes 19YY. -/
def y2pivot (n : Nat) : Nat := if n ≤ 68 then 2000 + n else 1900 + n

/-- Split into exactly three fields at a literal separator. -/
def parse3 (sep : Char) (s : List Char) : Option (List Char × List Char × List Char) :=
  match splitOnChar sep s with
  | [a, b, c] => some (a, b, c)
  | _ => none

/-- `strptime(s, "%m/%d/%Y")`. -/
def strptimeSlashMDY (s : List Char) : Option YMD := do
  let (a, b, c) ← parse3 '/' s
  let m ← pieceNum 1 2 a
  let d ← pieceNum 1 2 b
  let y ← pieceNum 4 4 c
  mkDate y m d

/-- `strptime(s, "%m/%d/%y")`. -/
def strptimeSlashMDy (s : List Char) : Option YMD := do
  let (a, b, c) ← parse3 '/' s
  let m ← pieceNum 1 2 a
  let d ← pieceNum 1 2 b
  let y ← pieceNum 2 2 c
  mkDate (y2pivot y) m d

/-- `strptime(s, "%m-%d-%Y")`. -/
def strptimeDashMDY (s : List Char) : Option YMD := do
  let (a, b, c) ← parse3 '-' s
  let m ← pieceNum 1 2 a
  let d ← pieceNum 1 2 b
  let y ← pieceNum 4 4 c
  mkDate y m d

/-- `strptime(s, "%d-%m-%Y")`. -/
def strptimeDashDMY (s : List Char) : Option YMD := do
  let (a, b, c) ← parse3 '-' s
  let d ← pieceNum 1 2 a
  let m ← pieceNum 1 2 b
  let y ← pieceNum 4 4 c
  mkDate y m d

/-- `strptime(s, "%d-%m-%y")`. -/
def strptimeDashDMy (s : List Char) : Option YMD := do
  let (a, b, c) ← parse3 '-' s
  let d ← pieceNum 1 2 a
  let m ← pieceNum 1 2 b
  let y ← pieceNum 2 2 c
  mkDate (y2pivot y) m d

/-- Month-name tables for `%b` (abbreviated) and `%B` (full), lower-cased. -/
def monthAbbrs : List (List Char) :=
  ["jan".data, "feb".data, "mar".data, "apr".data, "may".data, "jun".data,
   "jul".data, "aug".data, "sep".data, "oct".data, "nov".data, "dec".data]

/-- Full month names for `%B`, lower-cased. -/
def monthFulls : List (List Char) :=
  ["january".data, "february".data, "march".data, "april".data, "may".data,
   "june".data, "july".data, "august".data, "september".data, "october".data,
   "november".data, "december".data]

/-- Case-insensitive month-name lookup, 1-based month number. -/
def monthLookup (tbl : List (List Char)) (w : List Char) : Option Nat :=
  match tbl.findIdx? (fun x => x == w.map charLower) with
  | some i => some (i + 1)
  | none => none

/-- `strptime(s, "%b %d, %Y")` and its `%B` / `%y` variants (`abb` selects the
abbreviated table, `y2` the two-digit year). -/
def strptimeMonDY (abb y2 : Bool) (s : List Char) : Option YMD :=
  match pysplitAux s [] with
  | [mon, dc, ys] =>
    match dc.getLast? with
    | some ch =>
      if ch = ',' then do
        let m ← monthLookup (if abb then monthAbbrs else monthFulls) mon
        let d ← pieceNum 1 2 dc.dropLast
        let y ← (if y2 then (pieceNum 2 2 ys).map y2pivot else pieceNum 4 4 ys)
        mkDate y m d
      else none
    | none => none
  | _ => none

/-- `strptime(s, "%d %B %Y")` and its `%b` variant. -/
def strptimeDMonY (abb : Bool) (s : List Char) : Option YMD :=
  match pysplitAux s [] with
  | [dc, mon, ys] => do
      let d ← pieceNum 1 2 dc
      let m ← monthLookup (if abb then monthAbbrs else monthFulls) mon
      let y ← pieceNum 4 4 ys
      mkDate y m d
  | _ => none

/-! ## `extract_dates_from_text` (src/extract_coi_date.py, lines 133-176)

The regex scan is represented by the list of matches it produced, in pattern
order: the two numeric patterns yield their three groups, the spelled-month
pattern yields its whole matched substring. -/

/-- One regex match of the COI date scan. -/
inductive COIMatch where
  | numeric (month day year : String)
  | textual (s : String)
deriving DecidableEq

/-- Per-match parsing of the two numeric COI patterns: a two-digit year group
is expanded to `20YY`, then the string is parsed with `%m/%d/%Y`. -/
def parseNumericCOI (ms ds ys : String) : Option YMD :=
  let ysx := if ys.data.length = 2 then '2' :: '0' :: ys.data else ys.data
  strptimeSlashMDY (ms.data ++ '/' :: ds.data ++ '/' :: ysx)

/-- Per-match parsing of the spelled-month COI pattern: the source tries the
formats `%d %B %Y`, `%d %b %Y`, `%m/%d/%Y`, `%m-%d-%Y` in order. -/
def parseTextualCOI (s : String) : Option YMD :=
  strptimeDMonY false s.data <|> strptimeDMonY true s.data <|>
    strptimeSlashMDY s.data <|> strptimeDashMDY s.data

/-- The date a COI match parses to, if any. -/
def parseCOIMatch : COIMatch → Option YMD
  | COIMatch.numeric ms ds ys => parseNumericCOI ms ds ys
  | COIMatch.textual s => parseTextualCOI s

/-- The source's future-filtered running maximum:
`if date_obj > today: if latest_date is None or date_obj > latest_date: latest_date = date_obj`. -/
def optMaxUpd (today : YMD) (latest : Option YMD) (dt : YMD) : Option YMD :=
  if ymdLt today dt then
    match latest with
    | none => some dt
    | some l => if ymdLt l dt then some dt else some l
  else latest

/-- The match loop of `extract_dates_from_text`.  `last` is the current value
of the Python local `date_obj`: when a spelled-month match fails every format,
the source either reuses the previous `date_obj` (if one was ever assigned) or
hits an `UnboundLocalError` that the outer handler turns into returning the
current `latest_date`, abandoning the remaining matches. -/
def coiLoop (today : YMD) : List COIMatch → Option YMD → Option YMD → Option YMD
  | [], _, latest => latest
  | COIMatch.numeric ms ds ys :: rest, last, latest =>
    match parseNumericCOI ms ds ys with
    | some dt => coiLoop today rest (some dt) (optMaxUpd today latest dt)
    | none => coiLoop today rest last latest
  | COIMatch.textual s :: rest, last, latest =>
    match parseTextualCOI s with
    | some dt => coiLoop today rest (some dt) (optMaxUpd today latest dt)
    | none =>
      match last with
      | none => latest
      | some dt => coiLoop today rest (some dt) (optMaxUpd today latest dt)

/-- `extract_dates_from_text`: the latest parsed date strictly after `today`
(`datetime.now()` in the source, passed here as the reference date), `none`
when no candidate is strictly in the future. -/
def extract_dates_from_text (today : YMD) (events : List COIMatch) : Option YMD :=
  coiLoop today events none none

/-! ## `determine_invoice_date` (src/invoice_rename.py, lines 174-212)

The regex scan is represented by the list of matched substrings in pattern
order.  Each match parses as in the source; the parsed dates go into
`potential_dates` and a date-keyed dict mapping each parsed date to the last
stored text that produced it.  The source rebinds the loop variable
(`match = match.replace("-", "/")`) before `date_text_map[parsed_date] =
match`, so for a dash-format date the stored (and returned) text is the
dash-to-slash normalized string, not the matched substring.  The result is
the dict entry of `max(potential_dates)` — with no reference-date
filtering. -/

/-- Per-match parsing of `determine_invoice_date`: numeric matches (containing
`/` or `-`) have dashes replaced by slashes and parse with `%m/%d/%y` when the
final slash field has two characters, otherwise `%m/%d/%Y`; other matches try
`%b %d, %Y` then `%B %d, %Y`. -/
def parseInvoiceMatch (s : String) : Option YMD :=
  let l := s.data
  if l.contains '/' || l.contains '-' then
    let l2 := l.map (fun c => if c = '-' then '/' else c)
    let parts := splitOnChar '/' l2
    if (parts.getLastD []).length = 2 then strptimeSlashMDy l2 else strptimeSlashMDY l2
  else strptimeMonDY true false l <|> strptimeMonDY false false l

/-- One match's contribution to `potential_dates` / `date_text_map`: the
parsed date paired with the text the source stores for it — the dash-to-slash
normalized string for a numeric match (the loop variable is rebound before
the dict write), the matched substring itself for a spelled-month match. -/
def invoiceMatchEntry (s : String) : Option (YMD × String) :=
  let l := s.data
  if l.contains '/' || l.contains '-' then
    let l2 := l.map (fun c => if c = '-' then '/' else c)
    let parts := splitOnChar '/' l2
    (if (parts.getLastD []).length = 2 then strptimeSlashMDy l2 else strptimeSlashMDY l2).map
      fun dt => (dt, (⟨l2⟩ : String))
  else
    (strptimeMonDY true false l <|> strptimeMonDY false false l).map fun dt => (dt, s)

/-- The (parsed date, stored text) pairs of the scan, in scan order. -/
def invPairs (matchList : List String) : List (YMD × String) :=
  matchList.filterMap invoiceMatchEntry

/-- Python `max` on `datetime` values (keeps the first of equal elements). -/
def pymaxYMD (a b : YMD) : YMD := if ymdLt a b then b else a

/-- Selection step of `determine_invoice_date`: `max(potential_dates)` looked
up in the date-keyed dict, i.e. the last stored text whose parsed date equals
the maximum. -/
def invPick : List (YMD × String) → String
  | [] => "No Date Found"
  | p :: rest =>
    match (List.reverse (p :: rest)).find?
        (fun q => decide (q.1 = rest.foldl (fun acc r => pymaxYMD acc r.1) p.1)) with
    | some q => q.2
    | none => "No Date Found"

/-- `determine_invoice_date` on the list of regex matches from the text. -/
def determine_invoice_date (matchList : List String) : String :=
  invPick (invPairs matchList)

/-! ## Vendor resolution -/

/-- `determine_vendor_name` (src/invoice_rename.py, lines 157-172): tier 1 is
a case-insensitive substring test of each registry name against the text, in
registry order; tier 2 requires every whitespace token of the name to occur as
a substring; otherwise the sentinel `"XXX"` is returned. -/
def determine_vendor_name (names : List String) (text : String) : String :=
  match names.find? (fun name => substrB (strLower name) (strLower text)) with
  | some name => name
  | none =>
    match names.find?
        (fun name => (pysplit (strLower name)).all fun part => substrB part (strLower text)) with
    | some name => name
    | none => "XXX"

/-- `extract_vendor_name` (src/extract_coi_date.py, lines 344-380): the
free-text collaborator's reply (the stripped chat-completion content) is
returned verbatim unless it equals `"UNKNOWN"`; `vendorList` only feeds the
prompt and is never used to validate the reply. -/
def extract_vendor_name (vendorList : List String) (reply : String) : Option String :=
  let vendor_name := pystrip reply
  if vendor_name ≠ "UNKNOWN" then some vendor_name else none

/-! ## `determine_property_code` (src/invoice_rename.py, lines 129-155) -/

/-- One data row of the CODE sheet: column A is the property code, columns
B onward are the keywords. -/
structure CodeRow where
  code : String
  keywords : List String
deriving DecidableEq

/-- Weighted keyword score of a row against the text: each non-empty keyword
occurring case-insensitively in the text counts 1, except the keyword at
index 1 (sheet column C), which counts 5. -/
def rowScore (text : String) (row : CodeRow) : Nat :=
  row.keywords.enum.foldl
    (fun acc p =>
      if p.2 ≠ "" ∧ substrB (strLower p.2) (strLower text) then
        acc + (if p.1 = 1 then 5 else 1)
      else acc) 0

/-- The row loop of `determine_property_code`: keep the first row whose score
strictly exceeds the running maximum (initially 0 with code `"Unknown"`). -/
def pcLoop (text : String) : List CodeRow → Nat → String → String
  | [], _, best => best
  | row :: rest, maxM, best =>
    if rowScore text row > maxM then pcLoop text rest (rowScore text row) row.code
    else pcLoop text rest maxM best

/-- `determine_property_code` over the CODE-sheet rows. -/
def determine_property_code (rows : List CodeRow) (text : String) : String :=
  pcLoop text rows 0 "Unknown"

/-! ## `determine_invoice_number` (src/invoice_rename.py, lines 214-262) -/

/-- One token of the structural pattern built from a sample invoice number:
digits become a digit class, letters become `[A-Za-z]`, everything else is an
escaped literal. -/
inductive ShapeTok where
  | digit
  | letter
  | lit (c : Char)
deriving DecidableEq

/-- `structPattern`: the character-class skeleton of the sample. -/
def structPattern (sample : String) : List ShapeTok :=
  sample.data.map fun ch =>
    if ch.isDigit then ShapeTok.digit
    else if ch.isAlpha then ShapeTok.letter
    else ShapeTok.lit ch

/-- One pattern token against one character. -/
def tokMatch : ShapeTok → Char → Bool
  | ShapeTok.digit, c => c.isDigit
  | ShapeTok.letter, c => c.isAlpha
  | ShapeTok.lit c0, c => c0 = c

/-- `re.fullmatch` of the structural pattern against a whole token. -/
def matchShape (patt : List ShapeTok) (w : List Char) : Bool :=
  patt.length = w.length && (patt.zip w).all fun p => tokMatch p.1 p.2

/-- The index sequence of the source's bidirectional expanding search:
`for offset in range(n): for index in [wp + offset, wp - offset]`. -/
def invCandidates (wp n : Nat) : List Int :=
  (List.range n).flatMap fun off => [(wp : Int) + (off : Int), (wp : Int) - (off : Int)]

/-- The body of the search loop: accept index `i` when `0 ≤ i < len(words)`
and the token at `i` fully matches the pattern. -/
def checkIdx (words : List String) (patt : List ShapeTok) (i : Int) : Option String :=
  if 0 ≤ i then
    match words.get? i.toNat with
    | some w => if matchShape patt w.data then some w else none
    | none => none
  else none

/-- The bidirectional expanding token search: first hit of the candidate
index sequence. -/
def searchToken (words : List String) (wp : Nat) (patt : List ShapeTok) : Option String :=
  (invCandidates wp words.length).findSome? (checkIdx words patt)

/-- One data row of the VENDORS sheet: column B is the vendor name
(`row[1]`), column H the sample invoice number (`row[7]`). -/
structure VendorRow where
  vendor : String
  sample : String
deriving DecidableEq

/-- `determine_invoice_number`: guard (`not vendor_name or invoice_date ==
"No Name"`), locate the date text, compute the 1-based word position of the
date, find the vendor's registry row, and run the bidirectional search with
the row's structural pattern. -/
def determine_invoice_number (rows : List VendorRow) (vendor_name invoice_date text : String) :
    String :=
  if vendor_name = "" ∨ invoice_date = "No Name" then "No Invoice Number"
  else
    match pyfind text invoice_date with
    | none => "Invoice date not found in text."
    | some date_index =>
      let words := pysplit text
      let word_position := (pysplitAux (text.data.take date_index) []).length + 1
      match rows.find? (fun row => strLower row.vendor == strLower vendor_name) with
      | none => "No Invoice Number"
      | some row =>
        match searchToken words word_position (structPattern row.sample) with
        | some w => w
        | none => "No Matching Invoice Number Found"

/-! ## Filename synthesis -/

/-- `strftime("%m%d%y")`. -/
def fmt_mmddyy (d : YMD) : String := ⟨pad2c d.m ++ pad2c d.d ++ pad2c (d.y % 100)⟩

/-- `strftime("%m/%d/%Y")` (glibc prints the year unpadded). -/
def fmt_mdY (d : YMD) : String := ⟨pad2c d.m ++ '/' :: pad2c d.d ++ '/' :: natChars d.y⟩

/-- The date-format list of `generate_file_name`, tried in order. -/
def genParseDate (s : String) : Option YMD :=
  strptimeSlashMDY s.data <|> strptimeSlashMDy s.data <|>
    strptimeMonDY true false s.data <|> strptimeMonDY false false s.data <|>
    strptimeMonDY true true s.data <|> strptimeMonDY false true s.data <|>
    strptimeDashDMY s.data <|> strptimeDashDMy s.data

/-- `generate_file_name` (src/invoice_rename.py, lines 264-304): property code
verbatim, vendor upper-cased with whitespace runs joined by underscores, the
date reformatted as `%m%d%y` (default `"XXXXXX"` when no format parses), and
the digits of the invoice number, joined by underscores. -/
def generate_file_name (property_code vendor_name invoice_date invoice_number : String) :
    String :=
  let formatted_vendor_name := joinSep '_' (pysplitAux (strUpper vendor_name).data [])
  let formatted_date :=
    match genParseDate invoice_date with
    | some d => (fmt_mmddyy d).data
    | none => "XXXXXX".data
  let formatted_invoice_number := invoice_number.data.filter Char.isDigit
  ⟨property_code.data ++ '_' :: formatted_vendor_name ++ '_' :: formatted_date ++
    '_' :: formatted_invoice_number⟩

/-- The per-file core of `process_directory` (src/invoice_rename.py, lines
85-107): substitute the `MISSING_*` placeholders for the resolvers' sentinel
values, generate the file name, and relocate exactly when the name does not
contain `"MISSING"`.  Returns (new file name, moved-to-output?). -/
def process_file_decision (property_code vendor_name invoice_date invoice_number : String) :
    String × Bool :=
  let name := generate_file_name
    (if property_code ≠ "Unknown" then property_code else "MISSING_PROPERTY_CODE")
    (if vendor_name ≠ "No Name" then vendor_name else "MISSING_VENDOR")
    (if invoice_date ≠ "No Date Found" then invoice_date else "MISSING_DATE")
    (if invoice_number ≠ "No Invoice Number" then invoice_number else "MISSING_NUMBER")
  (name, !(substrB "MISSING" name))

/-- Vendor formatting of `rename_file_with_date` (src/extract_coi_date.py,
lines 178-201): drop characters outside `[a-zA-Z0-9\s]`, strip, upper-case,
then replace each single space by an underscore. -/
def coiFormatVendor (v : String) : String :=
  let kept := v.data.filter (fun c => c.isAlphanum || c.isWhitespace)
  let stripped := trimChars kept
  ⟨(stripped.map charUpper).map (fun c => if c = ' ' then '_' else c)⟩

/-- `rename_file_with_date`'s new file name, `none` where the source's
`strptime` of the resolved date raises (and the old name is kept). -/
def rename_file_with_date (vendor dateStr : String) : Option String :=
  (strptimeSlashMDY dateStr.data).map fun d =>
    ⟨"COI_".data ++ (coiFormatVendor vendor).data ++ '_' :: (fmt_mmddyy d).data ++ ".pdf".data⟩

/-! ## Region bounds and the per-document COI pipeline

The source computes `int(width * (horizontal_range[0] / 100))` and its three
siblings in Python, i.e. in IEEE-754 binary64 arithmetic: `h / 100` is the
correctly rounded (nearest, ties to even) double of the exact quotient, the
integer width is converted to a double (exact below `2^53`, rounded above),
the product is again correctly rounded, and `int(...)` truncates toward zero.
That arithmetic is emulated exactly below with integer computations: a
binary64 value is a 53-bit significand with a binary exponent, and rounding
a positive rational to it is done by scaling into `[2^52, 2^53)` and applying
round-half-to-even (overflow/subnormal handling is omitted; every value in
range here is a normal number). -/

/-- A (positive or zero) binary64 value: significand `m` (zero, or in
`[2^52, 2^53)`) times `2^e`. -/
structure F64 where
  m : Nat
  e : Int
deriving DecidableEq

/-- Scale the fraction `n/d` (tracking the factored-out exponent `e`) until
`n/d` lies in `[2^52, 2^53)`; the fuel far exceeds the binary64 exponent
range, so it never runs out for values that arise here. -/
def fnorm : Nat → Nat → Nat → Int → Nat × Nat × Int
  | 0, n, d, e => (n, d, e)
  | fuel+1, n, d, e =>
    if n < d * 2 ^ 52 then fnorm fuel (2 * n) d (e - 1)
    else if d * 2 ^ 53 ≤ n then fnorm fuel n (2 * d) (e + 1)
    else (n, d, e)

/-- Round the rational `num/den` to the nearest binary64 value, ties to
even — the rounding IEEE-754 applies to `int/int` true division and to
int-to-float conversion. -/
def rnd53 (num den : Nat) : F64 :=
  if num = 0 then ⟨0, 0⟩
  else
    let (n, d, e0) := fnorm 4200 num den 0
    let m0 := n / d
    let r := n % d
    let m :=
      if 2 * r < d then m0
      else if d < 2 * r then m0 + 1
      else (if m0 % 2 = 0 then m0 else m0 + 1)
    if m = 2 ^ 53 then ⟨2 ^ 52, e0 + 1⟩ else ⟨m, e0⟩

/-- Correctly rounded binary64 multiplication. -/
def fmul (a b : F64) : F64 :=
  if a.m = 0 ∨ b.m = 0 then ⟨0, 0⟩
  else
    let p := rnd53 (a.m * b.m) 1
    ⟨p.m, p.e + a.e + b.e⟩

/-- Python `int(...)` on a non-negative double: truncation toward zero. -/
def ftrunc (a : F64) : Nat :=
  if 0 ≤ a.e then a.m * 2 ^ a.e.toNat else a.m / 2 ^ (-a.e).toNat

/-- One bound of the source's computation: `int(w * (pct / 100))` in binary64
arithmetic. -/
def pyScale (w pct : Nat) : Nat := ftrunc (fmul (rnd53 w 1) (rnd53 pct 100))

/-- Pixel bounds computed by `get_intersection_bounds`
(src/extract_coi_date.py, lines 88-103): percentages of the image size in
float arithmetic, truncated. -/
structure PixBounds where
  left : Nat
  top : Nat
  right : Nat
  bottom : Nat
deriving DecidableEq

/-- `get_intersection_bounds` for an image of width `W` and height `H` and a
region with vertical range `(v0, v1)` and horizontal range `(h0, h1)`. -/
def get_intersection_bounds (W H v0 v1 h0 h1 : Nat) : PixBounds :=
  { left := pyScale W h0
    top := pyScale H v0
    right := pyScale W h1
    bottom := pyScale H v1 }

/-- Outcome of one region's OCR call as submitted to its executor:
the call returns text, raises inside `extract_text_from_region`, or exceeds
the `future.result` deadline. -/
inductive RegionCall where
  | completes (t : String)
  | raises
  | hangs
deriving DecidableEq

/-- What `future.result(timeout=...)` over `extract_text_from_region` yields:
an exception inside the call is caught there and degrades to `""`; a timeout
surfaces as `TimeoutError` (`none`). -/
def regionResult : RegionCall → Option String
  | RegionCall.completes t => some t
  | RegionCall.raises => some ""
  | RegionCall.hangs => none

/-- The control flow of `process_single_pdf` (src/extract_coi_date.py, lines
247-299): conversion failure or any region timeout returns `none`; otherwise
the date region's text is scanned for dates (`scan` is the regex scan of the
stripped region text), an unresolvable date returns `none`, and the result
pairs the formatted date with the collaborator-resolved vendor (`reply` is
the free-text collaborator's answer), defaulting to `"UNKNOWN"`. -/
def process_single_pdf (conv : Bool) (dateCall vendorCall : RegionCall)
    (scan : String → List COIMatch) (today : YMD)
    (vendorList : List String) (reply : String) : Option (String × String) :=
  if conv = false then none
  else
    match regionResult dateCall with
    | none => none
    | some dateText =>
      match regionResult vendorCall with
      | none => none
      | some _ =>
        match extract_dates_from_text today (scan (pystrip dateText)) with
        | none => none
        | some d =>
          some (fmt_mdY d, (extract_vendor_name vendorList reply).getD "UNKNOWN")

/-- Invariant of the running future-filtered maximum: `latest` is a parsed
candidate strictly after `today` that no future candidate of the processed
list `P` exceeds, or `none` when `P` has no candidate strictly after `today`. -/
def futureMaxInv (today : YMD) (P : List YMD) (latest : Option YMD) : Prop :=
  (∀ l, latest = some l → l ∈ P ∧ ymdLt today l ∧ ∀ c ∈ P, ymdLt today c → ¬ ymdLt l c)
  ∧ (latest = none → ∀ c ∈ P, ¬ ymdLt today c)

/-- The two-character decimal string of a value 0..99, as a regex `\d{2}`
year group. -/
def twoDigitStr (n : Nat) : String := ⟨[digitChar (n / 10), digitChar (n % 10)]⟩

/-! ## Order lemmas for the `datetime` comparison -/

theorem ymdLt_irrefl (a : YMD) : ¬ ymdLt a a := by
  rcases a with ⟨ay, am, ad⟩
  simp only [ymdLt]
  omega

theorem ymdLt_trans {a b c : YMD} (h1 : ymdLt a b) (h2 : ymdLt b c) : ymdLt a c := by
  rcases a with ⟨a1, a2, a3⟩
  rcases b with ⟨b1, b2, b3⟩
  rcases c with ⟨c1, c2, c3⟩
  simp only [ymdLt] at h1 h2 ⊢
  omega

theorem ymdLt_total (a b : YMD) : ymdLt a b ∨ a = b ∨ ymdLt b a := by
  rcases a with ⟨a1, a2, a3⟩
  rcases b with ⟨b1, b2, b3⟩
  simp only [ymdLt, YMD.mk.injEq]
  omega

theorem ymd_notLt_trans {x y z : YMD} (h1 : ¬ ymdLt x y) (h2 : ¬ ymdLt y z) : ¬ ymdLt x z := by
  intro hxz
  rcases ymdLt_total x y with h | h | h
  · exact h1 h
  · subst h
    exact h2 hxz
  · exact h2 (ymdLt_trans h hxz)

/-! ## The future-filtered running maximum satisfies its invariant -/

theorem futureMaxInv_step (today : YMD) (P : List YMD) (latest : Option YMD) (dt : YMD)
    (h : futureMaxInv today P latest) :
    futureMaxInv today (P ++ [dt]) (optMaxUpd today latest dt) := by
  obtain ⟨hs, hn⟩ := h
  unfold optMaxUpd
  by_cases hf : ymdLt today dt
  · simp only [if_pos hf]
    cases latest with
    | none =>
      refine ⟨?_, ?_⟩
      · intro l hl
        injection hl with hl
        subst hl
        refine ⟨List.mem_append_right _ (List.mem_singleton.mpr rfl), hf, ?_⟩
        intro c hc hfc
        rcases List.mem_append.mp hc with h1 | h2
        · exact absurd hfc (hn rfl c h1)
        · rw [List.mem_singleton.mp h2]
          exact ymdLt_irrefl _
      · intro h0
        cases h0
    | some l =>
      obtain ⟨hmem, hfl, hall⟩ := hs l rfl
      by_cases hl : ymdLt l dt
      · simp only [if_pos hl]
        refine ⟨?_, ?_⟩
        · intro l2 hl2
          injection hl2 with hl2
          subst hl2
          refine ⟨List.mem_append_right _ (List.mem_singleton.mpr rfl), hf, ?_⟩
          intro c hc hfc
          rcases List.mem_append.mp hc with h1 | h2
          · intro hlt
            exact hall c h1 hfc (ymdLt_trans hl hlt)
          · rw [List.mem_singleton.mp h2]
            exact ymdLt_irrefl _
        · intro h0
          cases h0
      · simp only [if_neg hl]
        refine ⟨?_, ?_⟩
        · intro l2 hl2
          injection hl2 with hl2
          subst hl2
          refine ⟨List.mem_append_left _ hmem, hfl, ?_⟩
          intro c hc hfc
          rcases List.mem_append.mp hc with h1 | h2
          · exact hall c h1 hfc
          · rw [List.mem_singleton.mp h2]
            exact hl
        · intro h0
          cases h0
  · simp only [if_neg hf]
    refine ⟨?_, ?_⟩
    · intro l hl
      obtain ⟨hmem, hfl, hall⟩ := hs l hl
      refine ⟨List.mem_append_left _ hmem, hfl, ?_⟩
      intro c hc hfc
      rcases List.mem_append.mp hc with h1 | h2
      · exact hall c h1 hfc
      · rw [List.mem_singleton.mp h2] at hfc
        exact absurd hfc hf
    · intro h0 c hc
      rcases List.mem_append.mp hc with h1 | h2
      · exact hn h0 c h1
      · rw [List.mem_singleton.mp h2]
        exact hf

theorem coiLoop_inv (today : YMD) (events : List COIMatch) :
    ∀ (last latest : Option YMD) (P : List YMD),
      (∀ s, COIMatch.textual s ∈ events → (parseTextualCOI s).isSome) →
      futureMaxInv today P latest →
      futureMaxInv today (P ++ events.filterMap parseCOIMatch) (coiLoop today events last latest) := by
  induction events with
  | nil =>
    intro last latest P _ hInv
    simpa using hInv
  | cons e rest ih =>
    intro last latest P hA hInv
    have hA' : ∀ s, COIMatch.textual s ∈ rest → (parseTextualCOI s).isSome :=
      fun s hs => hA s (List.mem_cons_of_mem _ hs)
    cases e with
    | numeric ms ds ys =>
      cases hp : parseNumericCOI ms ds ys with
      | some dt =>
        have h2 := ih (some dt) (optMaxUpd today latest dt) (P ++ [dt]) hA'
          (futureMaxInv_step today P latest dt hInv)
        simp only [coiLoop, hp]
        simpa [parseCOIMatch, List.filterMap_cons, hp, List.append_assoc] using h2
      | none =>
        have h2 := ih last latest P hA' hInv
        simp only [coiLoop, hp]
        simpa [parseCOIMatch, List.filterMap_cons, hp] using h2
    | textual s =>
      cases hp : parseTextualCOI s with
      | some dt =>
        have h2 := ih (some dt) (optMaxUpd today latest dt) (P ++ [dt]) hA'
          (futureMaxInv_step today P latest dt hInv)
        simp only [coiLoop, hp]
        simpa [parseCOIMatch, List.filterMap_cons, hp, List.append_assoc] using h2
      | none =>
        have := hA s (List.mem_cons_self _ _)
        rw [hp] at this
        cases this

/-! ## Lemmas for the invoice-date maximum selection -/

theorem invoiceMatchEntry_fst (s : String) :
    (invoiceMatchEntry s).map Prod.fst = parseInvoiceMatch s := by
  simp only [invoiceMatchEntry, parseInvoiceMatch]
  split
  · split
    · cases strptimeSlashMDy (s.data.map fun c => if c = '-' then '/' else c) <;> rfl
    · cases strptimeSlashMDY (s.data.map fun c => if c = '-' then '/' else c) <;> rfl
  · cases strptimeMonDY true false s.data <;> cases strptimeMonDY false false s.data <;> rfl

theorem pymaxYMD_notLt_left (a b : YMD) : ¬ ymdLt (pymaxYMD a b) a := by
  unfold pymaxYMD
  by_cases h : ymdLt a b
  · simp only [if_pos h]
    intro hba
    exact ymdLt_irrefl a (ymdLt_trans h hba)
  · simp only [if_neg h]
    exact ymdLt_irrefl a

theorem pymaxYMD_notLt_right (a b : YMD) : ¬ ymdLt (pymaxYMD a b) b := by
  unfold pymaxYMD
  by_cases h : ymdLt a b
  · simp only [if_pos h]
    exact ymdLt_irrefl b
  · simp only [if_neg h]
    exact h

theorem pymaxYMD_cases (a b : YMD) : pymaxYMD a b = a ∨ pymaxYMD a b = b := by
  unfold pymaxYMD
  by_cases h : ymdLt a b
  · rw [if_pos h]
    exact Or.inr rfl
  · rw [if_neg h]
    exact Or.inl rfl

theorem pyfold_spec (l : List (YMD × String)) :
    ∀ a : YMD,
      (l.foldl (fun acc r => pymaxYMD acc r.1) a = a ∨
        ∃ q ∈ l, l.foldl (fun acc r => pymaxYMD acc r.1) a = q.1)
      ∧ ¬ ymdLt (l.foldl (fun acc r => pymaxYMD acc r.1) a) a
      ∧ ∀ q ∈ l, ¬ ymdLt (l.foldl (fun acc r => pymaxYMD acc r.1) a) q.1 := by
  induction l with
  | nil =>
    intro a
    refine ⟨Or.inl rfl, ymdLt_irrefl a, ?_⟩
    intro q hq
    cases hq
  | cons p rest ih =>
    intro a
    have hfold : (p :: rest).foldl (fun acc r => pymaxYMD acc r.1) a
        = rest.foldl (fun acc r => pymaxYMD acc r.1) (pymaxYMD a p.1) := rfl
    obtain ⟨hcov, hge, hall⟩ := ih (pymaxYMD a p.1)
    rw [hfold]
    refine ⟨?_, ?_, ?_⟩
    · rcases hcov with h | ⟨q, hq, hqe⟩
      · rcases pymaxYMD_cases a p.1 with h2 | h2
        · exact Or.inl (h.trans h2)
        · exact Or.inr ⟨p, List.mem_cons_self _ _, h.trans h2⟩
      · exact Or.inr ⟨q, List.mem_cons_of_mem _ hq, hqe⟩
    · exact ymd_notLt_trans hge (pymaxYMD_notLt_left a p.1)
    · intro q hq
      rcases List.mem_cons.mp hq with h | h
      · rw [h]
        exact ymd_notLt_trans hge (pymaxYMD_notLt_right a p.1)
      · exact hall q h

theorem invPick_spec (pairs : List (YMD × String)) (hne : pairs ≠ []) :
    ∃ p ∈ pairs, invPick pairs = p.2 ∧ ∀ q ∈ pairs, ¬ ymdLt p.1 q.1 := by
  cases pairs with
  | nil => exact absurd rfl hne
  | cons p rest =>
    obtain ⟨hcov, hge, hall⟩ := pyfold_spec rest p.1
    have hmax : ∀ q ∈ p :: rest,
        ¬ ymdLt (rest.foldl (fun acc r => pymaxYMD acc r.1) p.1) q.1 := by
      intro q hq
      rcases List.mem_cons.mp hq with h | h
      · rw [h]
        exact hge
      · exact hall q h
    have hex : ∃ q ∈ (p :: rest).reverse,
        (fun q : YMD × String =>
          decide (q.1 = rest.foldl (fun acc r => pymaxYMD acc r.1) p.1)) q = true := by
      rcases hcov with h | ⟨q, hq, hqe⟩
      · exact ⟨p, List.mem_reverse.mpr (List.mem_cons_self _ _), by simp [h]⟩
      · exact ⟨q, List.mem_reverse.mpr (List.mem_cons_of_mem _ hq), by simp [hqe]⟩
    have hsome : ((p :: rest).reverse.find?
        (fun q => decide (q.1 = rest.foldl (fun acc r => pymaxYMD acc r.1) p.1))).isSome := by
      rw [List.find?_isSome]
      exact hex
    obtain ⟨r, hr⟩ := Option.isSome_iff_exists.mp hsome
    have hrmem : r ∈ p :: rest := List.mem_reverse.mp (List.mem_of_find?_eq_some hr)
    have hrpred := List.find?_some hr
    have hrkey : r.1 = rest.foldl (fun acc r => pymaxYMD acc r.1) p.1 :=
      of_decide_eq_true hrpred
    refine ⟨r, hrmem, ?_, ?_⟩
    · have hstep : invPick (p :: rest)
          = match (p :: rest).reverse.find?
              (fun q => decide (q.1 = rest.foldl (fun acc r => pymaxYMD acc r.1) p.1)) with
            | some q => q.2
            | none => "No Date Found" := rfl
      rw [hstep, hr]
    · intro q hq
      rw [hrkey]
      exact hmax q hq

/-! ## First-hit characterisation of `findSome?` -/

theorem findSome?_eq_head?_filterMap {α β : Type} (f : α → Option β) (l : List α) :
    l.findSome? f = (l.filterMap f).head? := by
  induction l with
  | nil => rfl
  | cons a l ih =>
    rw [List.findSome?_cons, List.filterMap_cons]
    cases h : f a with
    | some b => rfl
    | none => exact ih

/-! ## Lemmas for the property-code argmax loop -/

theorem pcLoop_noUpdate (text : String) :
    ∀ (rows : List CodeRow) (m : Nat) (b : String),
      (∀ r ∈ rows, rowScore text r ≤ m) → pcLoop text rows m b = b := by
  intro rows
  induction rows with
  | nil =>
    intro m b _
    rfl
  | cons hd tl ih =>
    intro m b h
    have hhd := h hd (List.mem_cons_self hd tl)
    have hcond : ¬ (rowScore text hd > m) := by omega
    simp only [pcLoop, if_neg hcond]
    exact ih m b (fun r hr => h r (List.mem_cons_of_mem hd hr))

theorem pcLoop_argmax (text : String) :
    ∀ (rows : List CodeRow) (j : Nat) (row : CodeRow) (m : Nat) (b : String),
      rows.get? j = some row →
      m < rowScore text row →
      (∀ r ∈ rows, rowScore text r ≤ rowScore text row) →
      (∀ k, k < j → ∀ r, rows.get? k = some r → rowScore text r < rowScore text row) →
      pcLoop text rows m b = row.code := by
  intro rows
  induction rows with
  | nil =>
    intro j row m b hget
    cases j <;> exact Option.noConfusion hget
  | cons hd tl ih =>
    intro j row m b hget hm hle hlt
    cases j with
    | zero =>
      have hhd : hd = row := Option.some.inj hget
      subst hhd
      simp only [pcLoop, if_pos hm]
      exact pcLoop_noUpdate text tl (rowScore text hd) hd.code
        (fun r hr => hle r (List.mem_cons_of_mem hd hr))
    | succ k =>
      have hget' : tl.get? k = some row := hget
      have hhd : rowScore text hd < rowScore text row :=
        hlt 0 (Nat.succ_pos k) hd (by simp)
      have hle' : ∀ r ∈ tl, rowScore text r ≤ rowScore text row :=
        fun r hr => hle r (List.mem_cons_of_mem hd hr)
      have hlt' : ∀ k2, k2 < k → ∀ r, tl.get? k2 = some r → rowScore text r < rowScore text row :=
        fun k2 hk2 r hr => hlt (k2 + 1) (by omega) r hr
      by_cases hcond : rowScore text hd > m
      · simp only [pcLoop, if_pos hcond]
        exact ih k row (rowScore text hd) hd.code hget' hhd hle' hlt'
      · simp only [pcLoop, if_neg hcond]
        exact ih k row m b hget' hm hle' hlt'

/-! ## Claim theorems -/

/-- C1 (amended): the COI resolver `extract_dates_from_text` does return the
maximum parsed candidate strictly after the reference date and `none` when no
candidate is strictly in the future (provided every spelled-month match
parses, since a spelled-month match that defeats every format aborts the scan
through an unbound local); but `determine_invoice_date` applies no
reference-date filter at all: it returns the stored text of the maximum of
all parsed candidates, past dates included — the dash-to-slash normalized
string for a numeric match, the matched substring for a spelled-month
match. -/
theorem c1_amended (today : YMD) (events : List COIMatch) (matchList : List String)
    (hA : ∀ s, COIMatch.textual s ∈ events → (parseTextualCOI s).isSome)
    (hne : invPairs matchList ≠ []) :
    ((∀ dt, extract_dates_from_text today events = some dt →
        dt ∈ events.filterMap parseCOIMatch ∧ ymdLt today dt ∧
          ∀ c ∈ events.filterMap parseCOIMatch, ymdLt today c → ¬ ymdLt dt c)
      ∧ (extract_dates_from_text today events = none →
          ∀ c ∈ events.filterMap parseCOIMatch, ¬ ymdLt today c))
    ∧ ∃ p ∈ invPairs matchList, determine_invoice_date matchList = p.2 ∧
        ∀ q ∈ invPairs matchList, ¬ ymdLt p.1 q.1 := by
  constructor
  · have base : futureMaxInv today [] none := by
      constructor
      · intro l hl
        cases hl
      · intro _ c hc
        cases hc
    have h := coiLoop_inv today events none none [] hA base
    rw [List.nil_append] at h
    obtain ⟨hs, hn⟩ := h
    exact ⟨fun dt hdt => hs dt hdt, fun h0 => hn h0⟩
  · exact invPick_spec (invPairs matchList) hne

/-- C1 witness: a single strictly-future COI match is returned by the COI
resolver, and a single past invoice match is returned (not "No Date Found")
by the invoice resolver. -/
theorem c1_witness :
    ((∀ dt, extract_dates_from_text ⟨2024, 1, 1⟩ [COIMatch.numeric "03" "15" "2099"] = some dt →
        dt ∈ [COIMatch.numeric "03" "15" "2099"].filterMap parseCOIMatch ∧
          ymdLt ⟨2024, 1, 1⟩ dt ∧
          ∀ c ∈ [COIMatch.numeric "03" "15" "2099"].filterMap parseCOIMatch,
            ymdLt ⟨2024, 1, 1⟩ c → ¬ ymdLt dt c)
      ∧ (extract_dates_from_text ⟨2024, 1, 1⟩ [COIMatch.numeric "03" "15" "2099"] = none →
          ∀ c ∈ [COIMatch.numeric "03" "15" "2099"].filterMap parseCOIMatch,
            ¬ ymdLt ⟨2024, 1, 1⟩ c))
    ∧ ∃ p ∈ invPairs ["01/02/2020"], determine_invoice_date ["01/02/2020"] = p.2 ∧
        ∀ q ∈ invPairs ["01/02/2020"], ¬ ymdLt p.1 q.1 :=
  c1_amended ⟨2024, 1, 1⟩ [COIMatch.numeric "03" "15" "2099"] ["01/02/2020"]
    (by intro s hs; simp at hs) (by decide)

/-- C1 counterexample: on a text whose only date is the past `01/02/2020`,
`determine_invoice_date` returns that past date rather than "No Date Found",
refuting the claim for any reference date after it (e.g. 2024-01-01); for a
dash-format past date it likewise returns the past date — in its
dash-to-slash normalized form, as the source stores it. -/
theorem c1_counterexample :
    determine_invoice_date ["01/02/2020"] = "01/02/2020"
    ∧ determine_invoice_date ["01/02/2020"] ≠ "No Date Found"
    ∧ parseInvoiceMatch "01/02/2020" = some ⟨2020, 1, 2⟩
    ∧ ymdLt ⟨2020, 1, 2⟩ ⟨2024, 1, 1⟩
    ∧ determine_invoice_date ["01-02-2020"] = "01/02/2020" := by decide

/-- C2 (amended): the tier-1/2 resolver `determine_vendor_name` always returns
a registry member or its "XXX" sentinel; but the tier-3 resolver
`extract_vendor_name` returns the collaborator's stripped reply verbatim
whenever it differs from "UNKNOWN", performing no registry-membership
validation. -/
theorem c2_amended :
    (∀ (names : List String) (text : String),
        determine_vendor_name names text = "XXX" ∨ determine_vendor_name names text ∈ names)
    ∧ ∀ (vendorList : List String) (reply : String), pystrip reply ≠ "UNKNOWN" →
        extract_vendor_name vendorList reply = some (pystrip reply) := by
  constructor
  · intro names text
    unfold determine_vendor_name
    split
    · rename_i name h1
      exact Or.inr (List.mem_of_find?_eq_some h1)
    · split
      · rename_i name h2
        exact Or.inr (List.mem_of_find?_eq_some h2)
      · exact Or.inl rfl
  · intro vendorList reply h
    show (if pystrip reply ≠ "UNKNOWN" then some (pystrip reply) else none) = some (pystrip reply)
    rw [if_pos h]

/-- C2 witness: the registry disjunction at a no-match text, and the verbatim
tier-3 reply at an unlisted vendor name. -/
theorem c2_witness :
    (determine_vendor_name ["Alpha Corp"] "an unrelated text" = "XXX" ∨
      determine_vendor_name ["Alpha Corp"] "an unrelated text" ∈ ["Alpha Corp"])
    ∧ extract_vendor_name ["Alpha Corp"] "Plausible Unlisted Vendor"
        = some (pystrip "Plausible Unlisted Vendor") :=
  ⟨c2_amended.1 ["Alpha Corp"] "an unrelated text",
    c2_amended.2 ["Alpha Corp"] "Plausible Unlisted Vendor" (by decide)⟩

/-- C2 counterexample: a tier-3 reply that is not byte-identical to any listed
name is returned as a resolved vendor, not treated as no match. -/
theorem c2_counterexample :
    extract_vendor_name ["Alpha Corp"] "Totally Fake Vendor" = some "Totally Fake Vendor"
    ∧ "Totally Fake Vendor" ∉ ["Alpha Corp"] := by decide

/-- C3 (code bug): `determine_vendor_name`'s unresolved sentinel is "XXX",
but `process_directory` substitutes placeholders only for the phantom
sentinels "No Name" (never produced); and the `MISSING_DATE` /
`MISSING_NUMBER` placeholders that are substituted get mangled by
`generate_file_name` (to "XXXXXX" and to the empty digit string), so a
document with an unresolved date carries no "MISSING" token and is relocated
to the done destination. -/
theorem c3_missing_placeholder_bug :
    process_file_decision "100" "ACME" "No Date Found" "12345" = ("100_ACME_XXXXXX_12345", true)
    ∧ determine_vendor_name ["Alpha Corp"] "no vendor here" = "XXX"
    ∧ process_file_decision "100" "XXX" "10/05/2025" "12345" = ("100_XXX_100525_12345", true)
    ∧ process_file_decision "100" "ACME" "10/05/2025" "No Invoice Number"
        = ("100_ACME_100525_", true) := by decide

/-- C4 (code bug): the precondition guard of `determine_invoice_number`
compares the date to the phantom sentinel "No Name", so with an unresolved
vendor ("XXX") and an unresolved date ("No Date Found") it does not yield
"No Invoice Number": it proceeds to search for the date text and returns the
distinct string "Invoice date not found in text.", which the caller then
treats as a resolved invoice number. -/
theorem c4_guard_bug :
    determine_invoice_number [⟨"ACME", "XY"⟩] "XXX" "No Date Found" "hello world"
      = "Invoice date not found in text."
    ∧ determine_invoice_number [⟨"ACME", "XY"⟩] "XXX" "No Date Found" "hello world"
      ≠ "No Invoice Number" := by decide

/-- C5 (amended): the search is the first full-pattern match over the index
sequence `wp+0, wp-0, wp+1, wp-1, ...` restricted to offsets `0..len(words)-1`
and to in-bounds indices, where `wp` is one plus the number of
whitespace-separated words strictly before the date occurrence (a 1-based
word position used directly as a 0-based list index); consequently, when `wp`
equals `len(words)` (the date is the final token), index 0 is never
examined. -/
theorem c5_amended :
    (∀ (words : List String) (wp : Nat) (patt : List ShapeTok),
        searchToken words wp patt
          = ((invCandidates wp words.length).filterMap (checkIdx words patt)).head?)
    ∧ ∀ wp n : Nat, wp = n → 1 ≤ n → (0 : Int) ∉ invCandidates wp n := by
  constructor
  · intro words wp patt
    exact findSome?_eq_head?_filterMap (checkIdx words patt) (invCandidates wp words.length)
  · intro wp n hwp hn hmem
    subst hwp
    rw [invCandidates, List.mem_flatMap] at hmem
    obtain ⟨off, hoff, hmem2⟩ := hmem
    rw [List.mem_range] at hoff
    simp only [List.mem_cons, List.mem_singleton] at hmem2
    rcases hmem2 with h | h
    · omega
    · rcases h with h | h
      · omega
      · cases h

/-- C5 witness: the search contract at a concrete two-token text whose anchor
equals the token count, where index 0 is indeed outside the candidate set. -/
theorem c5_witness :
    ((0 : Int) ∉ invCandidates 2 2)
    ∧ searchToken ["AB", "12/25/30"] 2 (structPattern "XY")
        = ((invCandidates 2 ["AB", "12/25/30"].length).filterMap
            (checkIdx ["AB", "12/25/30"] (structPattern "XY"))).head? :=
  ⟨c5_amended.2 2 2 rfl (by decide),
    c5_amended.1 ["AB", "12/25/30"] 2 (structPattern "XY")⟩

/-- C5 counterexample: with text "AB 12/25/30", date "12/25/30" and sample
"XY", the in-bounds token "AB" fully matches the structural pattern, yet the
search returns its no-match sentinel, because the anchor (2 = word count)
makes index 0 unreachable within offsets 0..1. -/
theorem c5_counterexample :
    determine_invoice_number [⟨"ACME", "XY"⟩] "ACME" "12/25/30" "AB 12/25/30"
      = "No Matching Invoice Number Found"
    ∧ matchShape (structPattern "XY") "AB".data = true
    ∧ "AB" ∈ pysplit "AB 12/25/30" := by decide

/-- C6 (amended): the COI scan (`extract_dates_from_text`) expands every
two-digit year YY to 20YY; but `determine_invoice_date` parses a two-digit
year with `strptime`'s `%y`, whose century pivot maps 00-68 to 20YY and 69-99
to 19YY — so "03/15/99" means 1999, not 2099. -/
theorem c6_amended :
    ∀ yy : Nat, yy < 100 →
      parseNumericCOI "03" "15" (twoDigitStr yy) = some ⟨2000 + yy, 3, 15⟩
      ∧ parseInvoiceMatch ("03/15/" ++ twoDigitStr yy)
          = some ⟨if yy ≤ 68 then 2000 + yy else 1900 + yy, 3, 15⟩ := by decide

/-- C6 witness: the two year expansions at YY = 99. -/
theorem c6_witness :
    parseNumericCOI "03" "15" (twoDigitStr 99) = some ⟨2000 + 99, 3, 15⟩
    ∧ parseInvoiceMatch ("03/15/" ++ twoDigitStr 99)
        = some ⟨if 99 ≤ 68 then 2000 + 99 else 1900 + 99, 3, 15⟩ :=
  c6_amended 99 (by decide)

/-- C6 counterexample: `determine_invoice_date` reads "03/15/99" as 1999 (not
2099), so against "01/01/2024" the latter wins, contradicting the claimed
uniform 20YY expansion. -/
theorem c6_counterexample :
    parseInvoiceMatch "03/15/99" = some ⟨1999, 3, 15⟩
    ∧ parseInvoiceMatch "03/15/99" ≠ some ⟨2099, 3, 15⟩
    ∧ determine_invoice_date ["03/15/99", "01/01/2024"] = "01/01/2024" := by decide

/-- C7 (amended): an exception inside a region's OCR call is caught and
degrades that region to empty text — `process_single_pdf` behaves exactly as
if the call had returned "" (and with the date otherwise resolved the
document still completes); but a region call that exceeds its deadline makes
`process_single_pdf` return `none`, aborting the whole document, as does a
rasterization failure. -/
theorem c7_amended :
    (∀ (conv : Bool) (dc : RegionCall) (scan : String → List COIMatch) (today : YMD)
        (vl : List String) (r : String),
        process_single_pdf conv dc RegionCall.raises scan today vl r
          = process_single_pdf conv dc (RegionCall.completes "") scan today vl r)
    ∧ (∀ (conv : Bool) (vc : RegionCall) (scan : String → List COIMatch) (today : YMD)
        (vl : List String) (r : String),
        process_single_pdf conv RegionCall.raises vc scan today vl r
          = process_single_pdf conv (RegionCall.completes "") vc scan today vl r)
    ∧ (∀ (conv : Bool) (dc : RegionCall) (scan : String → List COIMatch) (today : YMD)
        (vl : List String) (r : String),
        process_single_pdf conv dc RegionCall.hangs scan today vl r = none)
    ∧ (∀ (conv : Bool) (vc : RegionCall) (scan : String → List COIMatch) (today : YMD)
        (vl : List String) (r : String),
        process_single_pdf conv RegionCall.hangs vc scan today vl r = none)
    ∧ (∀ (dc vc : RegionCall) (scan : String → List COIMatch) (today : YMD)
        (vl : List String) (r : String),
        process_single_pdf false dc vc scan today vl r = none)
    ∧ process_single_pdf true (RegionCall.completes " 12/25/2099 ") RegionCall.raises
        (fun t => if t = "12/25/2099" then [COIMatch.numeric "12" "25" "2099"] else [])
        ⟨2024, 1, 1⟩ [] "Acme Co" = some ("12/25/2099", "Acme Co") := by
  refine ⟨?_, ?_, ?_, ?_, ?_, ?_⟩
  · intro conv dc scan today vl r
    cases conv <;> rfl
  · intro conv vc scan today vl r
    cases conv <;> rfl
  · intro conv dc scan today vl r
    cases conv <;> cases dc <;> rfl
  · intro conv vc scan today vl r
    cases conv <;> rfl
  · intro dc vc scan today vl r
    rfl
  · decide

/-- C7 counterexample: with the date region resolving a future date and
everything else in order, a vendor-region OCR timeout makes
`process_single_pdf` return `none` — the document is aborted, not completed
with the remaining fields. -/
theorem c7_counterexample :
    process_single_pdf true (RegionCall.completes "12/25/2099") RegionCall.hangs
      (fun _ => [COIMatch.numeric "12" "25" "2099"]) ⟨2024, 1, 1⟩ [] "Acme Co" = none := by decide

/-- C8 (amended): the truncated binary64 pixel box is within bounds and
non-empty for the source's configured regions at representative page sizes —
the date region (vertical 35-45, horizontal 50-69) on a 1700x2200 rasterized
page and the vendor region (vertical 20-32, horizontal 0-50) on a 612x792
page — but non-emptiness does not hold for every admissible region and image:
binary64 rounding makes `int(100 * (29 / 100)) = 28 = int(100 * (28 / 100))`,
so even `W * (h1 - h0) = 100` (here W = 100, h0 = 28, h1 = 29) can produce an
empty crop, and exact-rational reasoning about `W * h / 100` is unsound for
this code. -/
theorem c8_amended :
    get_intersection_bounds 1700 2200 35 45 50 69 = ⟨850, 770, 1173, 990⟩
    ∧ ((850 : Nat) < 1173 ∧ (1173 : Nat) ≤ 1700 ∧ (770 : Nat) < 990 ∧ (990 : Nat) ≤ 2200)
    ∧ get_intersection_bounds 612 792 20 32 0 50 = ⟨0, 158, 306, 253⟩
    ∧ ((0 : Nat) < 306 ∧ (306 : Nat) ≤ 612 ∧ (158 : Nat) < 253 ∧ (253 : Nat) ≤ 792)
    ∧ (get_intersection_bounds 100 100 28 29 28 29).left = 28
    ∧ (get_intersection_bounds 100 100 28 29 28 29).right = 28
    ∧ 100 ≤ 100 * (29 - 28) := by decide

/-- C8 counterexample: a 10-pixel-wide image with the admissible horizontal
range (11, 12) yields `left = right = 1` (binary64: `int(10 * 0.11) = 1 =
int(10 * 0.12)`) — an empty crop box, refuting the claimed strict
`left < right` for every `W ≥ 1`. -/
theorem c8_counterexample :
    (get_intersection_bounds 10 100 0 50 11 12).left = 1
    ∧ (get_intersection_bounds 10 100 0 50 11 12).right = 1
    ∧ ¬ ((get_intersection_bounds 10 100 0 50 11 12).left
          < (get_intersection_bounds 10 100 0 50 11 12).right) := by decide

/-- C9 (amended): on the claim's example the synthesized name is exactly
`100_ACME_SUPPLY_100525_1234`, and `generate_file_name` does collapse
whitespace runs to single underscores; but it does not strip non-alphanumeric
characters from the vendor (they survive into the name), while the COI
renamer strips them but replaces each single space without collapsing runs. -/
theorem c9_amended :
    generate_file_name "100" "Acme Supply" "10/05/2025" "INV-1234" = "100_ACME_SUPPLY_100525_1234"
    ∧ generate_file_name "100" "Acme   Supply" "10/05/2025" "INV-1234"
        = "100_ACME_SUPPLY_100525_1234"
    ∧ generate_file_name "100" "Acme & Supply" "10/05/2025" "INV-1234"
        = "100_ACME_&_SUPPLY_100525_1234"
    ∧ coiFormatVendor "Acme & Supply" = "ACME__SUPPLY"
    ∧ rename_file_with_date "Acme Supply" "10/05/2025" = some "COI_ACME_SUPPLY_100525.pdf" := by
  decide

/-- C9 counterexample: the vendor "Acme & Supply" keeps its ampersand in the
invoice filename, refuting the claimed non-alphanumeric stripping. -/
theorem c9_counterexample :
    generate_file_name "100" "Acme & Supply" "10/05/2025" "INV-1234"
      = "100_ACME_&_SUPPLY_100525_1234"
    ∧ "100_ACME_&_SUPPLY_100525_1234" ≠ "100_ACME_SUPPLY_100525_1234" := by decide

/-- C10: the resolved property code is the code of the first row attaining
the maximal weighted keyword count (column-C keywords weighted 5, others 1,
case-insensitive substring matching), provided that count is positive;
when every row scores 0 the result is the "Unknown" sentinel (which the
caller renders as MISSING_PROPERTY_CODE). -/
theorem c10_weighted_argmax (rows : List CodeRow) (text : String) :
    ((∀ r ∈ rows, rowScore text r = 0) → determine_property_code rows text = "Unknown")
    ∧ ∀ (j : Nat) (row : CodeRow), rows.get? j = some row →
        0 < rowScore text row →
        (∀ r ∈ rows, rowScore text r ≤ rowScore text row) →
        (∀ k, k < j → ∀ r, rows.get? k = some r → rowScore text r < rowScore text row) →
        determine_property_code rows text = row.code := by
  constructor
  · intro h
    exact pcLoop_noUpdate text rows 0 "Unknown" (fun r hr => Nat.le_of_eq (h r hr))
  · intro j row hget hpos hle hlt
    exact pcLoop_argmax text rows j row 0 "Unknown" hget hpos hle hlt

/-- C10 witness: a two-row table where the first row wins with a weighted
score of 6 (1 for "acme", 5 for the column-C keyword "hq"). -/
theorem c10_witness :
    determine_property_code [⟨"100", ["acme", "hq"]⟩, ⟨"200", ["zzz"]⟩] "acme hq invoice"
      = "100" :=
  (c10_weighted_argmax [⟨"100", ["acme", "hq"]⟩, ⟨"200", ["zzz"]⟩] "acme hq invoice").2
    0 ⟨"100", ["acme", "hq"]⟩ rfl (by decide) (by decide)
    (fun k hk r hr => absurd hk (Nat.not_lt_zero k))
